import Mathlib

/-
  Verification development for the Resonant Topography sketch
  (docs/sketch.js): a particle system blending three behavioural
  regimes (Fog / Net / Fluid).

  Shallow embedding conventions:
  * JavaScript numbers are modelled as exact rationals (ℚ).
  * The p5 vector library is modelled by the `Vec` structure below.
  * Irrational library primitives (Math.sqrt via p5 dist / normalize /
    limit, the Perlin noise field, p5.Vector.fromAngle and TWO_PI) have
    no exact rational values, so they are passed in as an explicit
    `Oracles` record of functions; theorems that depend on an actual
    property of the square root state it as a hypothesis
    (e.g. `d * d = dist2 a b`), and concrete instantiations use tables
    of exact square roots.
  * The grid's backing array of cells is modelled by its index → content
    map `cells : Int → List Nat`; the bounds guards of the source are
    reproduced verbatim, so only indices `c + r * cols` with
    `0 ≤ c < cols`, `0 ≤ r < rows` are ever read or written.
  * Node object references are modelled by the node's unique integer id
    (a map `Nat → NodeState` plays the role of the heap).
-/

namespace ResonantTopography

/-! ## Definitions (shallow embedding of docs/sketch.js) -/

/-- 2D vector of exact rationals, modelling p5.Vector as used by the sketch. -/
structure Vec where
  x : ℚ
  y : ℚ
deriving DecidableEq

instance : Add Vec :=
  ⟨fun a b => ⟨a.x + b.x, a.y + b.y⟩⟩

instance : Sub Vec :=
  ⟨fun a b => ⟨a.x - b.x, a.y - b.y⟩⟩

instance : Zero Vec :=
  ⟨⟨0, 0⟩⟩

instance : SMul ℚ Vec :=
  ⟨fun c v => ⟨c * v.x, c * v.y⟩⟩

/-- Squared magnitude of a vector (p5 magSq). -/
def normSq (v : Vec) : ℚ :=
  v.x ^ 2 + v.y ^ 2

/-- Squared distance between two points; p5.Vector.dist is the square
root of this. -/
def dist2 (a b : Vec) : ℚ :=
  (a.x - b.x) ^ 2 + (a.y - b.y) ^ 2

/-- p5 `constrain(n, low, high)` = `max(min(n, high), low)` on rationals. -/
def clampQ (n lo hi : ℚ) : ℚ :=
  max (min n hi) lo

/-- p5 `constrain` on integers (used for `targetPhase`). -/
def constrainI (n lo hi : Int) : Int :=
  max (min n hi) lo

/-- p5 `map(v, a, b, c, d)` (no clamping): linear interpolation. -/
def mapQ (v a b c d : ℚ) : ℚ :=
  c + (v - a) * (d - c) / (b - a)

/-- p5 `lerp(a, b, amt) = a + (b - a) * amt`. -/
def lerpQ (a b amt : ℚ) : ℚ :=
  a + (b - a) * amt

/-- Fog regime parameters (CONFIG.fog). -/
structure FogConfig where
  maxSpeed : ℚ
  noiseScale : ℚ
  noiseStrength : ℚ

/-- Net regime parameters (CONFIG.net). -/
structure NetConfig where
  connectionDist : ℚ
  attractForce : ℚ
  repelForce : ℚ
  repelRadius : ℚ
  drag : ℚ

/-- Fluid regime parameters (CONFIG.fluid). -/
structure FluidConfig where
  maxSpeed : ℚ
  centerGravity : ℚ
  vortexStrength : ℚ
  flowNoise : ℚ
  drag : ℚ

/-- The configuration record of the sketch (visual-only fields omitted). -/
structure Config where
  nodeCount : Nat
  gridCellSize : ℚ
  fog : FogConfig
  net : NetConfig
  fluid : FluidConfig
  transitionSpeed : ℚ

/-- The concrete CONFIG object of the source (desktop values):
nodeCount 200, gridCellSize 120; fog maxSpeed 0.5 / noiseScale 0.005 /
noiseStrength 0.5; net connectionDist 100 / attractForce 0.008 /
repelForce 0.15 / repelRadius 40 / drag 0.90; fluid maxSpeed 4.0 /
centerGravity 0.02 / vortexStrength 0.08 / flowNoise 0.2 / drag 0.96;
transitionSpeed 0.02. -/
def CONFIG : Config :=
  ⟨200, 120,
   ⟨1/2, 5/1000, 1/2⟩,
   ⟨100, 8/1000, 15/100, 40, 9/10⟩,
   ⟨4, 2/100, 8/100, 2/10, 96/100⟩,
   2/100⟩

/-- Discrete state of the SceneManager phase machine: `targetPhase`
(0 = Fog, 1 = Net, 2 = Fluid), the cycling direction `dir` (±1) and the
`prevPhase` field used by `onPhaseChanged`.  (`currentT` and the derived
weights are continuous and modelled separately by `sceneWeights`.) -/
structure SceneState where
  targetPhase : Int
  dir : Int
  prevPhase : Int
deriving DecidableEq

/-- Initial SceneManager state (constructor, lines 165–171):
targetPhase 0, dir 1, prevPhase 0. -/
def initScene : SceneState :=
  ⟨0, 1, 0⟩

/-- `onPhaseChanged(prev, next)` (lines 184–192): returns whether
`randomizeFluidProfile()` is invoked, i.e. whether the pair is (1,2)
(entering Fluid) or (2,1) (leaving Fluid). -/
def onPhaseChanged (prev next : Int) : Bool :=
  (prev == 1 && next == 2) || (prev == 2 && next == 1)

/-- `cyclePhase()` (lines 173–182), translated statement by statement:
if targetPhase = 0 set dir := 1; if targetPhase = 2 set dir := -1;
targetPhase := constrain(targetPhase + dir, 0, 2); then call
`onPhaseChanged(prevPhase, targetPhase)`.  Note the source never writes
to `this.prevPhase` after the constructor, so the returned state keeps
`prevPhase` unchanged.  The second component reports whether the fluid
profile was resampled. -/
def cyclePhase (s : SceneState) : SceneState × Bool :=
  let dir1 := if s.targetPhase = 0 then 1 else s.dir
  let dir2 := if s.targetPhase = 2 then -1 else dir1
  let tp := constrainI (s.targetPhase + dir2) 0 2
  (⟨tp, dir2, s.prevPhase⟩, onPhaseChanged s.prevPhase tp)

/-- State after `n` advance events starting from the initial state. -/
def advanceIter : Nat → SceneState
  | 0 => initScene
  | n + 1 => (cyclePhase (advanceIter n)).1

/-- The ping-pong phase sequence 0,1,2,1,0,1,2,1,… (period 4). -/
def phaseSeq (n : Nat) : Int :=
  match n % 4 with
  | 0 => 0
  | 1 => 1
  | 2 => 2
  | _ => 1

/-- Closed form for the full machine state after `n` advances. -/
def smAt (n : Nat) : SceneState :=
  if n = 0 then ⟨0, 1, 0⟩
  else match n % 4 with
    | 1 => ⟨1, 1, 0⟩
    | 2 => ⟨2, 1, 0⟩
    | 3 => ⟨1, -1, 0⟩
    | _ => ⟨0, -1, 0⟩

/-- The triple of blend weights. -/
structure Weights where
  fog : ℚ
  net : ℚ
  fluid : ℚ
deriving DecidableEq

/-- `SceneManager.update` weight computation from the continuous
progress value `currentT` (lines 198–207):
fog = constrain(1 - T, 0, 1); net = constrain(1 - |T - 1|, 0, 1);
fluid = constrain(T - 1, 0, 1). -/
def sceneWeights (t : ℚ) : Weights :=
  ⟨clampQ (1 - t) 0 1,
   clampQ (1 - |t - 1|) 0 1,
   clampQ (t - 1) 0 1⟩

/-- The `currentT` smoothing step of `SceneManager.update` (line 196):
`currentT = lerp(currentT, targetPhase, transitionSpeed)`. -/
def sceneProgressStep (cfg : Config) (t : ℚ) (targetPhase : Int) : ℚ :=
  lerpQ t (targetPhase : ℚ) cfg.transitionSpeed

/-- The sequential threshold branches of `updatePhysics` (lines 360–376):
drag = 1, maxSpeed = 1; if fog > 0.5 then maxSpeed := fog.maxSpeed;
if net > 0.5 then drag := net.drag, maxSpeed := 2;
if fluid > 0.5 then drag := fluid.drag, maxSpeed := fluid.maxSpeed.
Returns (drag, maxSpeed). -/
def dragMaxOf (cfg : Config) (w : Weights) : ℚ × ℚ :=
  let ms1 := if w.fog > 1/2 then cfg.fog.maxSpeed else 1
  let d2 := if w.net > 1/2 then cfg.net.drag else 1
  let ms2 := if w.net > 1/2 then 2 else ms1
  let d3 := if w.fluid > 1/2 then cfg.fluid.drag else d2
  let ms3 := if w.fluid > 1/2 then cfg.fluid.maxSpeed else ms2
  (d3, ms3)

/-- The spatial hash grid.  The backing array `this.cells` (length
cols * rows) is modelled by its index → content map; the source's bounds
guards are reproduced verbatim in `insert` and `query`, so only indices
`c + r * cols` with `0 ≤ c < cols` and `0 ≤ r < rows` are ever touched.
Node references are stored as node ids. -/
structure UniformGrid where
  cellSize : ℚ
  cols : Int
  rows : Int
  cells : Int → List Nat

/-- Constructor (lines 228–233): `cols = ceil(w / size)`,
`rows = ceil(h / size)`, all cells empty. -/
def UniformGrid.create (w h size : ℚ) : UniformGrid :=
  ⟨size, ⌈w / size⌉, ⌈h / size⌉, fun _ => []⟩

/-- `clear()` (lines 235–239): empties every cell. -/
def UniformGrid.clear (g : UniformGrid) : UniformGrid :=
  ⟨g.cellSize, g.cols, g.rows, fun _ => []⟩

/-- The bounds guard `col >= 0 && col < cols && row >= 0 && row < rows`
shared by `insert` and `query`. -/
def validCell (g : UniformGrid) (c r : Int) : Prop :=
  0 ≤ c ∧ c < g.cols ∧ 0 ≤ r ∧ r < g.rows

instance (g : UniformGrid) (c r : Int) : Decidable (validCell g c r) := by
  unfold validCell
  infer_instance

/-- Linear cell index `col + row * cols` of a position. -/
def linOf (g : UniformGrid) (p : Vec) : Int :=
  ⌊p.x / g.cellSize⌋ + ⌊p.y / g.cellSize⌋ * g.cols

/-- `insert(node)` (lines 241–248): compute `col = floor(x / cellSize)`,
`row = floor(y / cellSize)`; if in bounds, push the node id onto that
cell; otherwise silently drop. -/
def UniformGrid.insert (g : UniformGrid) (p : Vec) (i : Nat) : UniformGrid :=
  let col := ⌊p.x / g.cellSize⌋
  let row := ⌊p.y / g.cellSize⌋
  if validCell g col row then
    ⟨g.cellSize, g.cols, g.rows, fun idx =>
      if idx = col + row * g.cols then g.cells idx ++ [i] else g.cells idx⟩
  else g

/-- The offset list of the two nested `for (let i = -1; i <= 1; i++)`
loops of `query`. -/
def offs : List Int :=
  [-1, 0, 1]

/-- `query(node)` (lines 251–270): concatenate the contents of the 3×3
block of cells centred on the queried position's cell, skipping cells
that fail the bounds guard. -/
def UniformGrid.query (g : UniformGrid) (p : Vec) : List Nat :=
  let col := ⌊p.x / g.cellSize⌋
  let row := ⌊p.y / g.cellSize⌋
  offs.flatMap fun i =>
    offs.flatMap fun j =>
      let c := col + i
      let r := row + j
      if validCell g c r then g.cells (c + r * g.cols) else []

/-- The per-frame grid rebuild `for (let node of nodes) grid.insert(node)`
(line 120), as a fold over (id, position) pairs. -/
def insertList (g : UniformGrid) (l : List (Nat × Vec)) : UniformGrid :=
  l.foldl (fun g pr => g.insert pr.2 pr.1) g

/-- Whether inserting a node at position `p` into grid `g` stores it
into the cell with linear index `idx` (Bool-valued, for `List.filter`). -/
def hitsCellB (g : UniformGrid) (p : Vec) (idx : Int) : Bool :=
  decide (validCell g ⌊p.x / g.cellSize⌋ ⌊p.y / g.cellSize⌋) && (idx == linOf g p)

/-- Contents of the (guarded) cell at coordinates `cr`. -/
def cellAt (g : UniformGrid) (cr : Int × Int) : List Nat :=
  if validCell g cr.1 cr.2 then g.cells (cr.1 + cr.2 * g.cols) else []

/-- 250×250 canvas with cell size 120: a 3×3 grid of cells. -/
def gC5 : UniformGrid :=
  UniformGrid.create 250 250 120

/-- Three nodes in cells (0,0), (1,1) and (2,2) of `gC5`. -/
def lC5 : List (Nat × Vec) :=
  [(0, ⟨10, 10⟩), (1, ⟨130, 130⟩), (2, ⟨249, 249⟩)]

/-- 100×100 canvas with cell size 120: a single 1×1 grid of cells. -/
def gC8 : UniformGrid :=
  UniformGrid.create 100 100 120

/-- Node 0 in the only cell; node 1 at x = 125 whose cell column
`floor(125/120) = 1` is out of bounds (cols = 1). -/
def lC8 : List (Nat × Vec) :=
  [(0, ⟨50, 50⟩), (1, ⟨125, 10⟩)]

/-- Oracle record for the irrational math primitives used by the sketch:
`sqrtF` stands for Math.sqrt (p5 dist / normalize / limit), `noiseF` for
the 3D Perlin noise field (values in [0,1)), `fromAngleF` for
p5.Vector.fromAngle (unit vector at an angle in radians) and `twoPi` for
the float constant TWO_PI.  These have no exact rational values, so the
embedding is parametric in them; theorems needing a genuine property of
the square root take it as a hypothesis, and concrete instantiations use
tables of exact square roots. -/
structure Oracles where
  sqrtF : ℚ → ℚ
  noiseF : ℚ → ℚ → ℚ → ℚ
  fromAngleF : ℚ → Vec
  twoPi : ℚ

/-- The global fluid profile (source lines 59–62): gravitySign ∈ {+1,-1},
gravityScale > 0 (randomized only by `randomizeFluidProfile`). -/
structure FluidProfile where
  gravitySign : ℚ
  gravityScale : ℚ

/-- The initial fluid profile of the source: sign +1, scale 10.0. -/
def fpInit : FluidProfile :=
  ⟨1, 10⟩

/-- A node's mutable kinematic state (id and mass omitted: the id is the
map key below, mass is unused by the physics). -/
structure NodeState where
  pos : Vec
  vel : Vec
  acc : Vec
deriving DecidableEq

/-- The heap of node objects: node id → current state. -/
def NodeMap : Type :=
  Nat → NodeState

/-- Write one node's state (reference update). -/
def setNode (m : NodeMap) (i : Nat) (n : NodeState) : NodeMap :=
  fun j => if j = i then n else m j

/-- p5.Vector.normalize: divide by the magnitude unless it is zero. -/
def normalizeV (orc : Oracles) (v : Vec) : Vec :=
  let len := orc.sqrtF (normSq v)
  if len = 0 then v else (1 / len) • v

/-- p5.Vector.limit(max): if the squared magnitude exceeds max², rescale
to magnitude max (divide by the magnitude, multiply by max). -/
def limitV (orc : Oracles) (m : ℚ) (v : Vec) : Vec :=
  if normSq v > m * m then (m / orc.sqrtF (normSq v)) • v else v

/-- The per-neighbour body of the Net force loop of `applyBehaviors`
(source lines 304–329): with `d = dist(this, other)`, if
`0 < d < connectionDist` then add the attraction (gated on
net > 0.01, strength `map(d, 0, connectionDist, 1, 0) * attractForce * net`
toward the neighbour) and, if `d < repelRadius`, the repulsion
(strength `map(d, 0, repelRadius, 1, 0) * repelForce * net * (1 - 0.5 fluid)`
away from the neighbour).  Returns the acceleration increment. -/
def netPairForce (cfg : Config) (orc : Oracles) (wt : Weights)
    (self other : Vec) : Vec :=
  let d := orc.sqrtF (dist2 self other)
  if 0 < d ∧ d < cfg.net.connectionDist then
    let dir := normalizeV orc (other - self)
    let attract := if wt.net > 1/100 then
        (mapQ d 0 cfg.net.connectionDist 1 0 * cfg.net.attractForce * wt.net) • dir
      else 0
    let repel := if d < cfg.net.repelRadius then
        ((-1) * mapQ d 0 cfg.net.repelRadius 1 0 * cfg.net.repelForce * wt.net *
          (1 - wt.fluid * (1/2))) • dir
      else 0
    attract + repel
  else 0

/-- `Node.applyBehaviors` (source lines 290–356), returning the node's
acceleration after the call (the source mutates `this.acc` in place).
Fog: if fog > 0.01, add a unit vector at angle
`noise(x·noiseScale, y·noiseScale, frameCount·0.005) · TWO_PI · 4`
scaled by `noiseStrength · fog`.  Net: if net > 0.01 or fluid > 0.01,
fold `netPairForce` over the grid query result, skipping self.
Fluid: if fluid > 0.01, add centre gravity (scaled by the fluid
profile), the perpendicular vortex force, and a flow-noise direction. -/
def applyBehaviors (cfg : Config) (orc : Oracles) (fp : FluidProfile)
    (wt : Weights) (w h fc : ℚ) (g : UniformGrid) (m : NodeMap) (i : Nat) : Vec :=
  let n := m i
  let a0 := n.acc
  let a1 := if wt.fog > 1/100 then
      let noiseVal := orc.noiseF (n.pos.x * cfg.fog.noiseScale)
        (n.pos.y * cfg.fog.noiseScale) (fc * (5/1000))
      let angle := noiseVal * orc.twoPi * 4
      a0 + (cfg.fog.noiseStrength * wt.fog) • orc.fromAngleF angle
    else a0
  let a2 := if wt.net > 1/100 ∨ wt.fluid > 1/100 then
      (g.query n.pos).foldl
        (fun a oid => if oid = i then a
          else a + netPairForce cfg orc wt n.pos (m oid).pos) a1
    else a1
  if wt.fluid > 1/100 then
    let center : Vec := ⟨w / 2, h / 2⟩
    let dirToCenter := normalizeV orc (center - n.pos)
    let b1 := a2 + (cfg.fluid.centerGravity * wt.fluid * fp.gravitySign *
      fp.gravityScale) • dirToCenter
    let spiral : Vec := ⟨-dirToCenter.y, dirToCenter.x⟩
    let b2 := b1 + (cfg.fluid.vortexStrength * wt.fluid) • spiral
    let fluidNoise := orc.noiseF (n.pos.x * (1/100)) (n.pos.y * (1/100)) (fc * (1/100))
    b2 + (cfg.fluid.flowNoise * wt.fluid) • orc.fromAngleF (fluidNoise * orc.twoPi)
  else a2

/-- `Node.wrapEdges` (source lines 386–391), statement by statement:
if x < 0 then x := width; if x > width then x := 0; likewise for y. -/
def wrapEdges (w h : ℚ) (p : Vec) : Vec :=
  let x1 := if p.x < 0 then w else p.x
  let x2 := if x1 > w then 0 else x1
  let y1 := if p.y < 0 then h else p.y
  let y2 := if y1 > h then 0 else y1
  ⟨x2, y2⟩

/-- The velocity after the integration statements of `updatePhysics`
(lines 378–380): `vel.add(acc); vel.mult(drag); vel.limit(maxSpeed)`. -/
def velAfter (cfg : Config) (orc : Oracles) (wt : Weights) (n : NodeState) : Vec :=
  limitV orc (dragMaxOf cfg wt).2 ((dragMaxOf cfg wt).1 • (n.vel + n.acc))

/-- The position after `pos.add(vel)` (line 381), before `wrapEdges`. -/
def preWrapPos (cfg : Config) (orc : Oracles) (wt : Weights) (n : NodeState) : Vec :=
  n.pos + velAfter cfg orc wt n

/-- `Node.updatePhysics` (source lines 358–384): select drag/maxSpeed by
threshold (`dragMaxOf`), integrate the velocity and position, then wrap
edges.  The accumulated acceleration is kept (it is reset at the start
of the next frame by `resetForces`). -/
def updatePhysics (cfg : Config) (orc : Oracles) (w h : ℚ) (wt : Weights)
    (n : NodeState) : NodeState :=
  ⟨wrapEdges w h (preWrapPos cfg orc wt n), velAfter cfg orc wt n, n.acc⟩

/-- One iteration of the per-node loop of `draw` (source lines 124–128):
`node.resetForces(); node.applyBehaviors(nodes, grid, weights);
node.updatePhysics(weights)` — note forces and integration of node `j`
both happen before the next node is processed. -/
def stepNode (cfg : Config) (orc : Oracles) (fp : FluidProfile) (wt : Weights)
    (w h fc : ℚ) (g : UniformGrid) (m : NodeMap) (j : Nat) : NodeMap :=
  let n := m j
  let m1 := setNode m j ⟨n.pos, n.vel, 0⟩
  let a := applyBehaviors cfg orc fp wt w h fc g m1 j
  setNode m j (updatePhysics cfg orc w h wt ⟨n.pos, n.vel, a⟩)

/-- The physics part of one `draw` frame (source lines 117–128): clear
and rebuild the grid from the current positions, then run the per-node
loop in the given processing order. -/
def runFrame (cfg : Config) (orc : Oracles) (fp : FluidProfile) (wt : Weights)
    (w h fc : ℚ) (order : List Nat) (m : NodeMap) : NodeMap :=
  let g := insertList (UniformGrid.create w h cfg.gridCellSize).clear
    (order.map fun j => (j, (m j).pos))
  order.foldl (stepNode cfg orc fp wt w h fc g) m

/-- Table of exact square roots for the inputs arising in the concrete
fixtures: 5² = 25, 10² = 100, 40² = 1600, and
(249973/6250)² = 62486500729/39062500.
Used to instantiate the `sqrtF` oracle; every square root actually taken
in the concrete runs below is of one of these perfect squares, so the
oracle returns the true square root at every evaluated point. -/
def sqrtTable (q : ℚ) : ℚ :=
  if q = 25 then 5
  else if q = 100 then 10
  else if q = 1600 then 40
  else if q = 62486500729/39062500 then 249973/6250
  else 0

/-- Concrete oracle instantiation (noise and angle oracles are
irrelevant to the fixtures: all fixture weights have fog = fluid = 0, or
the gated branches are closed). -/
def oracleFix : Oracles :=
  ⟨sqrtTable, fun _ _ _ => 0, fun _ => ⟨1, 0⟩, 0⟩

/-- Weights with only the Net regime active (progress = 1). -/
def wNet : Weights :=
  ⟨0, 1, 0⟩

/-- Weights with only the Fog regime at full strength (progress = 0). -/
def wFogOnly : Weights :=
  ⟨1, 0, 0⟩

/-- Node for the C7 witness: position (0.099, 5), velocity (-0.1, 0). -/
def nC7 : NodeState :=
  ⟨⟨99/1000, 5⟩, ⟨-1/10, 0⟩, ⟨0, 0⟩⟩

/-- Weights in the dead zone of the Net gate: net = 1/200 ∈ (0, 0.01],
fluid = 0, so the source's outer gate `net > 0.01 || fluid > 0.01` is
closed. -/
def wGate : Weights :=
  ⟨0, 1/200, 0⟩

/-- Node heap for the C6 counterexample: node 0 at (0,0), node 1 at (10,0). -/
def mC6 : NodeMap :=
  fun i => if i = 0 then ⟨⟨0, 0⟩, ⟨0, 0⟩, ⟨0, 0⟩⟩ else ⟨⟨10, 0⟩, ⟨0, 0⟩, ⟨0, 0⟩⟩

/-- Grid for the C6 counterexample (both nodes in the single cell). -/
def gC6 : UniformGrid :=
  insertList (UniformGrid.create 100 100 120).clear [(0, ⟨0, 0⟩), (1, ⟨10, 0⟩)]

/-- Node heap for the C2 counterexample: node 0 at (10,10), node 1 at
(50,10), both at rest (dist 40 = repelRadius exactly, so no repulsion at
the start-of-frame positions). -/
def mC2 : NodeMap :=
  fun i => if i = 0 then ⟨⟨10, 10⟩, ⟨0, 0⟩, ⟨0, 0⟩⟩ else ⟨⟨50, 10⟩, ⟨0, 0⟩, ⟨0, 0⟩⟩

/-- The cleared 1×1 grid of a 100×100 canvas with cell size 120. -/
def gBase : UniformGrid :=
  (UniformGrid.create 100 100 120).clear

/-- Frame grid for processing order [0, 1]. -/
def gRun1 : UniformGrid :=
  insertList gBase [(0, ⟨10, 10⟩), (1, ⟨50, 10⟩)]

/-- Frame grid for processing order [1, 0]. -/
def gRun2 : UniformGrid :=
  insertList gBase [(1, ⟨50, 10⟩), (0, ⟨10, 10⟩)]

/-! ## Theorems -/

@[simp] theorem Vec.add_x (a b : Vec) : (a + b).x = a.x + b.x := rfl

@[simp] theorem Vec.add_y (a b : Vec) : (a + b).y = a.y + b.y := rfl

@[simp] theorem Vec.sub_x (a b : Vec) : (a - b).x = a.x - b.x := rfl

@[simp] theorem Vec.sub_y (a b : Vec) : (a - b).y = a.y - b.y := rfl

@[simp] theorem Vec.smul_x (c : ℚ) (v : Vec) : (c • v).x = c * v.x := rfl

@[simp] theorem Vec.smul_y (c : ℚ) (v : Vec) : (c • v).y = c * v.y := rfl

@[simp] theorem Vec.zero_x : (0 : Vec).x = 0 := rfl

@[simp] theorem Vec.zero_y : (0 : Vec).y = 0 := rfl

theorem advanceIter_eq_smAt (n : Nat) : advanceIter n = smAt n := by
  induction n with
  | zero => rfl
  | succ n ih =>
    have hstep : advanceIter (n + 1) = (cyclePhase (smAt n)).1 := by
      rw [advanceIter, ih]
    rcases Nat.eq_zero_or_pos n with hz | hp
    · subst hz
      rw [hstep]
      decide
    · have hne : n ≠ 0 := by omega
      have hne1 : n + 1 ≠ 0 := by omega
      have h4 : n % 4 = 0 ∨ n % 4 = 1 ∨ n % 4 = 2 ∨ n % 4 = 3 := by omega
      rcases h4 with h | h | h | h
      · have h1 : (n + 1) % 4 = 1 := by omega
        rw [hstep]
        simp only [smAt, if_neg hne, if_neg hne1, h, h1]
        decide
      · have h1 : (n + 1) % 4 = 2 := by omega
        rw [hstep]
        simp only [smAt, if_neg hne, if_neg hne1, h, h1]
        decide
      · have h1 : (n + 1) % 4 = 3 := by omega
        rw [hstep]
        simp only [smAt, if_neg hne, if_neg hne1, h, h1]
        decide
      · have h1 : (n + 1) % 4 = 0 := by omega
        rw [hstep]
        simp only [smAt, if_neg hne, if_neg hne1, h, h1]
        decide

/-- C4: starting from targetPhase 0 with dir +1, the n-th advance leaves
`targetPhase` at the ping-pong value 0,1,2,1,0,…; `targetPhase` stays in
[0,2] and `dir` in {+1,-1} after every advance. -/
theorem cyclePhase_ping_pong (n : Nat) :
    (advanceIter n).targetPhase = phaseSeq n ∧
    ((advanceIter n).dir = 1 ∨ (advanceIter n).dir = -1) ∧
    0 ≤ (advanceIter n).targetPhase ∧ (advanceIter n).targetPhase ≤ 2 := by
  rw [advanceIter_eq_smAt]
  by_cases hz : n = 0
  · subst hz
    decide
  · have h4 : n % 4 = 0 ∨ n % 4 = 1 ∨ n % 4 = 2 ∨ n % 4 = 3 := by omega
    rcases h4 with h | h | h | h <;>
      · simp only [smAt, phaseSeq, if_neg hz, h]
        decide

/-- C4 witness: the first four advances yield targetPhase 1, 2, 1, 0. -/
theorem cyclePhase_ping_pong_witness :
    (advanceIter 1).targetPhase = phaseSeq 1 ∧
    (advanceIter 2).targetPhase = phaseSeq 2 ∧
    (advanceIter 3).targetPhase = phaseSeq 3 ∧
    (advanceIter 4).targetPhase = phaseSeq 4 ∧
    phaseSeq 1 = 1 ∧ phaseSeq 2 = 2 ∧ phaseSeq 3 = 1 ∧ phaseSeq 4 = 0 :=
  ⟨(cyclePhase_ping_pong 1).1, (cyclePhase_ping_pong 2).1,
   (cyclePhase_ping_pong 3).1, (cyclePhase_ping_pong 4).1,
   by decide, by decide, by decide, by decide⟩

/-- C1 (code bug): because `cyclePhase` never writes `prevPhase` (the
source assigns it only in the constructor), `prevPhase` stays 0 forever,
`onPhaseChanged` never sees the pair (1,2) or (2,1), and the fluid
profile is never resampled — in particular not on the second advance,
which moves `targetPhase` from 1 to 2, and after that advance
`prevPhase ≠ targetPhase`, contradicting the specified side effect
`previousPhase = targetPhase`. -/
theorem fluidResample_never_fires :
    (∀ n : Nat, (advanceIter n).prevPhase = 0 ∧
      (cyclePhase (advanceIter n)).2 = false) ∧
    (advanceIter 1).targetPhase = 1 ∧
    (advanceIter 2).targetPhase = 2 ∧
    (advanceIter 2).prevPhase ≠ (advanceIter 2).targetPhase := by
  have hprev : ∀ n : Nat, (advanceIter n).prevPhase = 0 := by
    intro n
    rw [advanceIter_eq_smAt]
    by_cases hz : n = 0
    · subst hz; decide
    · have h4 : n % 4 = 0 ∨ n % 4 = 1 ∨ n % 4 = 2 ∨ n % 4 = 3 := by omega
      rcases h4 with h | h | h | h <;> simp only [smAt, if_neg hz, h]
  refine ⟨fun n => ⟨hprev n, ?_⟩, by decide, by decide, by decide⟩
  rw [advanceIter_eq_smAt]
  by_cases hz : n = 0
  · subst hz
    decide
  · have h4 : n % 4 = 0 ∨ n % 4 = 1 ∨ n % 4 = 2 ∨ n % 4 = 3 := by omega
    rcases h4 with h | h | h | h <;>
      · simp only [smAt, if_neg hz, h]
        decide

theorem clampQ_le (n lo hi : ℚ) (h : lo ≤ hi) : clampQ n lo hi ≤ hi := by
  unfold clampQ
  exact max_le (min_le_right n hi) h

theorem le_clampQ (n lo hi : ℚ) : lo ≤ clampQ n lo hi := by
  unfold clampQ
  exact le_max_right _ _

theorem half_lt_clamp01 (a : ℚ) : 1/2 < clampQ a 0 1 ↔ 1/2 < a := by
  unfold clampQ
  rw [lt_max_iff, lt_min_iff]
  constructor
  · rintro (⟨h, -⟩ | h)
    · exact h
    · norm_num at h
  · intro h
    exact Or.inl ⟨h, by norm_num⟩

/-- C3: for every progress value in [0,2] the per-frame weight update
computes fog = clamp(1 - progress, 0, 1), net = clamp(1 - |progress - 1|, 0, 1),
fluid = clamp(progress - 1, 0, 1); the triple is (1,0,0) at progress 0,
(0,1,0) at progress 1, (0,0,1) at progress 2, and all three weights lie
in [0,1]. -/
theorem sceneWeights_formula (p : ℚ) (h0 : 0 ≤ p) (h2 : p ≤ 2) :
    (sceneWeights p).fog = clampQ (1 - p) 0 1 ∧
    (sceneWeights p).net = clampQ (1 - |p - 1|) 0 1 ∧
    (sceneWeights p).fluid = clampQ (p - 1) 0 1 ∧
    sceneWeights 0 = ⟨1, 0, 0⟩ ∧
    sceneWeights 1 = ⟨0, 1, 0⟩ ∧
    sceneWeights 2 = ⟨0, 0, 1⟩ ∧
    0 ≤ (sceneWeights p).fog ∧ (sceneWeights p).fog ≤ 1 ∧
    0 ≤ (sceneWeights p).net ∧ (sceneWeights p).net ≤ 1 ∧
    0 ≤ (sceneWeights p).fluid ∧ (sceneWeights p).fluid ≤ 1 :=
  ⟨rfl, rfl, rfl,
   by unfold sceneWeights clampQ; norm_num,
   by unfold sceneWeights clampQ; norm_num,
   by unfold sceneWeights clampQ; norm_num,
   le_clampQ _ _ _,
   clampQ_le _ _ _ (by norm_num),
   le_clampQ _ _ _,
   clampQ_le _ _ _ (by norm_num),
   le_clampQ _ _ _,
   clampQ_le _ _ _ (by norm_num)⟩

/-- C3 witness at progress 1/2: fog = 1/2, net = 1/2, fluid = 0, and the
boundary values hold. -/
theorem sceneWeights_formula_witness :
    0 ≤ (1/2 : ℚ) ∧ (1/2 : ℚ) ≤ 2 ∧
    sceneWeights 0 = ⟨1, 0, 0⟩ ∧
    sceneWeights 1 = ⟨0, 1, 0⟩ ∧
    sceneWeights 2 = ⟨0, 0, 1⟩ ∧
    0 ≤ (sceneWeights (1/2)).fog ∧ (sceneWeights (1/2)).fog ≤ 1 :=
  ⟨by norm_num, by norm_num,
   (sceneWeights_formula (1/2) (by norm_num) (by norm_num)).2.2.2.1,
   (sceneWeights_formula (1/2) (by norm_num) (by norm_num)).2.2.2.2.1,
   (sceneWeights_formula (1/2) (by norm_num) (by norm_num)).2.2.2.2.2.1,
   (sceneWeights_formula (1/2) (by norm_num) (by norm_num)).2.2.2.2.2.2.1,
   (sceneWeights_formula (1/2) (by norm_num) (by norm_num)).2.2.2.2.2.2.2.1⟩

/-- C9: for every progress in [0,2] at most one of the derived weights
exceeds 1/2, so the drag/maxSpeed threshold branches of `updatePhysics`
are mutually exclusive: whichever single weight exceeds 1/2 alone
determines the (drag, maxSpeed) pair. -/
theorem weights_branches_exclusive (cfg : Config) (p : ℚ)
    (h0 : 0 ≤ p) (h2 : p ≤ 2) :
    ¬((sceneWeights p).fog > 1/2 ∧ (sceneWeights p).net > 1/2) ∧
    ¬((sceneWeights p).fog > 1/2 ∧ (sceneWeights p).fluid > 1/2) ∧
    ¬((sceneWeights p).net > 1/2 ∧ (sceneWeights p).fluid > 1/2) ∧
    ((sceneWeights p).fog > 1/2 →
      dragMaxOf cfg (sceneWeights p) = (1, cfg.fog.maxSpeed)) ∧
    ((sceneWeights p).net > 1/2 →
      dragMaxOf cfg (sceneWeights p) = (cfg.net.drag, 2)) ∧
    ((sceneWeights p).fluid > 1/2 →
      dragMaxOf cfg (sceneWeights p) = (cfg.fluid.drag, cfg.fluid.maxSpeed)) := by
  have hfog : (sceneWeights p).fog > 1/2 ↔ 1/2 < 1 - p := half_lt_clamp01 _
  have hnet : (sceneWeights p).net > 1/2 ↔ 1/2 < 1 - |p - 1| := half_lt_clamp01 _
  have hfluid : (sceneWeights p).fluid > 1/2 ↔ 1/2 < p - 1 := half_lt_clamp01 _
  have habs : 1/2 < 1 - |p - 1| ↔ |p - 1| < 1/2 := by constructor <;> (intro h; linarith)
  have hex1 : ¬((sceneWeights p).fog > 1/2 ∧ (sceneWeights p).net > 1/2) := by
    rintro ⟨ha, hb⟩
    rw [hfog] at ha
    rw [hnet, habs, abs_lt] at hb
    linarith [hb.1]
  have hex2 : ¬((sceneWeights p).fog > 1/2 ∧ (sceneWeights p).fluid > 1/2) := by
    rintro ⟨ha, hb⟩
    rw [hfog] at ha
    rw [hfluid] at hb
    linarith
  have hex3 : ¬((sceneWeights p).net > 1/2 ∧ (sceneWeights p).fluid > 1/2) := by
    rintro ⟨ha, hb⟩
    rw [hnet, habs, abs_lt] at ha
    rw [hfluid] at hb
    linarith [ha.2]
  refine ⟨hex1, hex2, hex3, ?_, ?_, ?_⟩
  · intro h
    have hn : ¬((sceneWeights p).net > 1/2) := fun hx => hex1 ⟨h, hx⟩
    have hf : ¬((sceneWeights p).fluid > 1/2) := fun hx => hex2 ⟨h, hx⟩
    simp only [dragMaxOf, if_pos h, if_neg hn, if_neg hf]
  · intro h
    have hf : ¬((sceneWeights p).fluid > 1/2) := fun hx => hex3 ⟨h, hx⟩
    simp only [dragMaxOf, if_pos h, if_neg hf]
  · intro h
    simp only [dragMaxOf, if_pos h]

/-- C9 witness at progress 1/4 (deep Fog): fog = 3/4 > 1/2 and the
selected pair is (drag, maxSpeed) = (1, CONFIG.fog.maxSpeed). -/
theorem weights_branches_exclusive_witness :
    0 ≤ (1/4 : ℚ) ∧ (1/4 : ℚ) ≤ 2 ∧ (sceneWeights (1/4)).fog > 1/2 ∧
    dragMaxOf CONFIG (sceneWeights (1/4)) = (1, CONFIG.fog.maxSpeed) := by
  have hf : (sceneWeights (1/4)).fog > 1/2 := by
    unfold sceneWeights clampQ
    norm_num
  exact ⟨by norm_num, by norm_num, hf,
    (weights_branches_exclusive CONFIG (1/4) (by norm_num) (by norm_num)).2.2.2.1 hf⟩

@[simp] theorem insert_cellSize (g : UniformGrid) (p : Vec) (i : Nat) :
    (g.insert p i).cellSize = g.cellSize := by
  by_cases h : validCell g ⌊p.x / g.cellSize⌋ ⌊p.y / g.cellSize⌋ <;>
    simp [UniformGrid.insert, h]

@[simp] theorem insert_cols (g : UniformGrid) (p : Vec) (i : Nat) :
    (g.insert p i).cols = g.cols := by
  by_cases h : validCell g ⌊p.x / g.cellSize⌋ ⌊p.y / g.cellSize⌋ <;>
    simp [UniformGrid.insert, h]

@[simp] theorem insert_rows (g : UniformGrid) (p : Vec) (i : Nat) :
    (g.insert p i).rows = g.rows := by
  by_cases h : validCell g ⌊p.x / g.cellSize⌋ ⌊p.y / g.cellSize⌋ <;>
    simp [UniformGrid.insert, h]

@[simp] theorem clear_cellSize (g : UniformGrid) : g.clear.cellSize = g.cellSize := rfl

@[simp] theorem clear_cols (g : UniformGrid) : g.clear.cols = g.cols := rfl

@[simp] theorem clear_rows (g : UniformGrid) : g.clear.rows = g.rows := rfl

@[simp] theorem clear_cells (g : UniformGrid) (idx : Int) : g.clear.cells idx = [] := rfl

theorem hitsCellB_iff (g : UniformGrid) (p : Vec) (idx : Int) :
    hitsCellB g p idx = true ↔
      validCell g ⌊p.x / g.cellSize⌋ ⌊p.y / g.cellSize⌋ ∧ idx = linOf g p := by
  unfold hitsCellB
  simp

@[simp] theorem hitsCellB_insert (g : UniformGrid) (q : Vec) (j : Nat)
    (p : Vec) (idx : Int) :
    hitsCellB (g.insert q j) p idx = hitsCellB g p idx := by
  unfold hitsCellB validCell linOf
  simp

theorem cells_insert (g : UniformGrid) (p : Vec) (i : Nat) (idx : Int) :
    (g.insert p i).cells idx =
      g.cells idx ++ (if hitsCellB g p idx then [i] else []) := by
  by_cases hv : validCell g ⌊p.x / g.cellSize⌋ ⌊p.y / g.cellSize⌋
  · by_cases he : idx = linOf g p
    · have hb : hitsCellB g p idx = true := (hitsCellB_iff g p idx).mpr ⟨hv, he⟩
      unfold UniformGrid.insert
      rw [if_pos hv, hb]
      simp only [linOf] at he
      simp [he]
    · have hb : hitsCellB g p idx = false := by
        rw [Bool.eq_false_iff]
        intro hc
        exact he ((hitsCellB_iff g p idx).mp hc).2
      unfold UniformGrid.insert
      rw [if_pos hv, hb]
      simp only [linOf] at he
      simp [he]
  · have hb : hitsCellB g p idx = false := by
      rw [Bool.eq_false_iff]
      intro hc
      exact hv ((hitsCellB_iff g p idx).mp hc).1
    unfold UniformGrid.insert
    rw [if_neg hv, hb]
    simp

theorem cells_insertList (l : List (Nat × Vec)) (g : UniformGrid) (idx : Int) :
    (insertList g l).cells idx =
      g.cells idx ++ (l.filter fun pr => hitsCellB g pr.2 idx).map Prod.fst := by
  induction l generalizing g with
  | nil => simp [insertList]
  | cons pr rest ih =>
    have h1 : insertList g (pr :: rest) = insertList (g.insert pr.2 pr.1) rest := rfl
    rw [h1, ih, cells_insert]
    simp only [hitsCellB_insert, List.filter_cons]
    by_cases hb : hitsCellB g pr.2 idx
    · simp [hb, List.append_assoc]
    · simp [hb]

@[simp] theorem insertList_cellSize (l : List (Nat × Vec)) (g : UniformGrid) :
    (insertList g l).cellSize = g.cellSize := by
  induction l generalizing g with
  | nil => rfl
  | cons pr rest ih => rw [insertList, List.foldl_cons, ← insertList, ih, insert_cellSize]

@[simp] theorem insertList_cols (l : List (Nat × Vec)) (g : UniformGrid) :
    (insertList g l).cols = g.cols := by
  induction l generalizing g with
  | nil => rfl
  | cons pr rest ih => rw [insertList, List.foldl_cons, ← insertList, ih, insert_cols]

@[simp] theorem insertList_rows (l : List (Nat × Vec)) (g : UniformGrid) :
    (insertList g l).rows = g.rows := by
  induction l generalizing g with
  | nil => rfl
  | cons pr rest ih => rw [insertList, List.foldl_cons, ← insertList, ih, insert_rows]

@[simp] theorem hitsCellB_clear (g : UniformGrid) (p : Vec) (idx : Int) :
    hitsCellB g.clear p idx = hitsCellB g p idx := by
  unfold hitsCellB validCell linOf
  simp

/-- Membership in a built grid's cell is exactly "some inserted pair in
bounds landed there". -/
theorem mem_cells_build (g0 : UniformGrid) (l : List (Nat × Vec)) (idx : Int) (a : Nat) :
    a ∈ (insertList g0.clear l).cells idx ↔
      ∃ mp, (a, mp) ∈ l ∧ hitsCellB g0 mp idx = true := by
  rw [cells_insertList]
  simp only [clear_cells, List.nil_append, List.mem_map, List.mem_filter, hitsCellB_clear]
  constructor
  · rintro ⟨⟨b, mp⟩, ⟨hprl, hhit⟩, hfst⟩
    simp only at hfst
    subst hfst
    exact ⟨mp, hprl, hhit⟩
  · rintro ⟨mp, hml, hhit⟩
    exact ⟨(a, mp), ⟨hml, hhit⟩, rfl⟩

theorem mem_ite_nil (c : Prop) [Decidable c] (L : List Nat) (a : Nat) :
    a ∈ (if c then L else []) ↔ c ∧ a ∈ L := by
  split
  · rename_i h
    simp [h]
  · rename_i h
    simp [h]

/-- Membership in a query result, phrased over absolute cell coordinates:
`a` is returned iff it lies in a valid cell at Chebyshev distance ≤ 1
from the queried position's cell. -/
theorem mem_query_abs (g : UniformGrid) (p : Vec) (a : Nat) :
    a ∈ g.query p ↔
      ∃ c r : Int, |c - ⌊p.x / g.cellSize⌋| ≤ 1 ∧ |r - ⌊p.y / g.cellSize⌋| ≤ 1 ∧
        validCell g c r ∧ a ∈ g.cells (c + r * g.cols) := by
  unfold UniformGrid.query
  simp only [List.mem_flatMap, mem_ite_nil]
  constructor
  · rintro ⟨i, hi, j, hj, hv, hm⟩
    refine ⟨⌊p.x / g.cellSize⌋ + i, ⌊p.y / g.cellSize⌋ + j, ?_, ?_, hv, hm⟩
    · have : i = -1 ∨ i = 0 ∨ i = 1 := by
        simpa [offs] using hi
      rcases this with h | h | h <;> simp [h]
    · have : j = -1 ∨ j = 0 ∨ j = 1 := by
        simpa [offs] using hj
      rcases this with h | h | h <;> simp [h]
  · rintro ⟨c, r, hc, hr, hv, hm⟩
    refine ⟨c - ⌊p.x / g.cellSize⌋, ?_, r - ⌊p.y / g.cellSize⌋, ?_, ?_, ?_⟩
    · have : c - ⌊p.x / g.cellSize⌋ = -1 ∨ c - ⌊p.x / g.cellSize⌋ = 0 ∨
          c - ⌊p.x / g.cellSize⌋ = 1 := by
        rw [abs_le] at hc
        omega
      rcases this with h | h | h <;> simp [offs, h]
    · have : r - ⌊p.y / g.cellSize⌋ = -1 ∨ r - ⌊p.y / g.cellSize⌋ = 0 ∨
          r - ⌊p.y / g.cellSize⌋ = 1 := by
        rw [abs_le] at hr
        omega
      rcases this with h | h | h <;> simp [offs, h]
    · have h1 : ⌊p.x / g.cellSize⌋ + (c - ⌊p.x / g.cellSize⌋) = c := by ring
      have h2 : ⌊p.y / g.cellSize⌋ + (r - ⌊p.y / g.cellSize⌋) = r := by ring
      rw [h1, h2]
      exact hv
    · have h1 : ⌊p.x / g.cellSize⌋ + (c - ⌊p.x / g.cellSize⌋) = c := by ring
      have h2 : ⌊p.y / g.cellSize⌋ + (r - ⌊p.y / g.cellSize⌋) = r := by ring
      rw [h1, h2]
      exact hm

/-- The linear index `c + r * cols` is injective on in-bounds cells. -/
theorem lin_inj (g : UniformGrid) (c1 r1 c2 r2 : Int)
    (h1 : validCell g c1 r1) (h2 : validCell g c2 r2)
    (he : c1 + r1 * g.cols = c2 + r2 * g.cols) : c1 = c2 ∧ r1 = r2 := by
  unfold validCell at h1 h2
  obtain ⟨hc1, hc1u, hr1, hr1u⟩ := h1
  obtain ⟨hc2, hc2u, hr2, hr2u⟩ := h2
  have hd : c1 - c2 = (r2 - r1) * g.cols := by linear_combination he
  have hcols : 0 < g.cols := lt_of_le_of_lt hc1 hc1u
  rcases lt_trichotomy r1 r2 with hr | hr | hr
  · exfalso
    have h2' : (1 : Int) ≤ r2 - r1 := by omega
    have h3' : 1 * g.cols ≤ (r2 - r1) * g.cols :=
      mul_le_mul_of_nonneg_right h2' hcols.le
    rw [one_mul] at h3'
    linarith
  · refine ⟨?_, hr⟩
    have hz : (r2 - r1) * g.cols = 0 := by
      rw [hr]
      ring
    linarith
  · exfalso
    have h2' : r2 - r1 ≤ -1 := by omega
    have h3' : (r2 - r1) * g.cols ≤ (-1) * g.cols :=
      mul_le_mul_of_nonneg_right h2' hcols.le
    rw [neg_one_mul] at h3'
    linarith

/-- C5: after `clear()` then inserting every node of `l`, a query for an
inserted node `n` whose cell is in bounds returns every other inserted
node whose in-bounds cell lies in the 3×3 block around `n`'s cell, and
everything it returns comes from an inserted node whose in-bounds cell
lies in that block. -/
theorem grid_query_neighborhood (g0 : UniformGrid) (l : List (Nat × Vec))
    (nid : Nat) (np : Vec)
    (hmem : (nid, np) ∈ l)
    (hval : validCell g0 ⌊np.x / g0.cellSize⌋ ⌊np.y / g0.cellSize⌋) :
    (∀ mid mp, (mid, mp) ∈ l → (mid, mp) ≠ (nid, np) →
      validCell g0 ⌊mp.x / g0.cellSize⌋ ⌊mp.y / g0.cellSize⌋ →
      |⌊mp.x / g0.cellSize⌋ - ⌊np.x / g0.cellSize⌋| ≤ 1 →
      |⌊mp.y / g0.cellSize⌋ - ⌊np.y / g0.cellSize⌋| ≤ 1 →
      mid ∈ (insertList g0.clear l).query np) ∧
    (∀ a, a ∈ (insertList g0.clear l).query np →
      ∃ mp, (a, mp) ∈ l ∧
        validCell g0 ⌊mp.x / g0.cellSize⌋ ⌊mp.y / g0.cellSize⌋ ∧
        |⌊mp.x / g0.cellSize⌋ - ⌊np.x / g0.cellSize⌋| ≤ 1 ∧
        |⌊mp.y / g0.cellSize⌋ - ⌊np.y / g0.cellSize⌋| ≤ 1) := by
  have hsize : (insertList g0.clear l).cellSize = g0.cellSize := by simp
  have hcols : (insertList g0.clear l).cols = g0.cols := by simp
  have hrows : (insertList g0.clear l).rows = g0.rows := by simp
  have hvalid : ∀ c r, validCell (insertList g0.clear l) c r ↔ validCell g0 c r := by
    intro c r
    unfold validCell
    rw [hcols, hrows]
  constructor
  · intro mid mp hm hne hv hdc hdr
    rw [mem_query_abs, hsize]
    refine ⟨⌊mp.x / g0.cellSize⌋, ⌊mp.y / g0.cellSize⌋, hdc, hdr, ?_, ?_⟩
    · rw [hvalid]
      exact hv
    · rw [hcols, mem_cells_build]
      refine ⟨mp, hm, ?_⟩
      rw [hitsCellB_iff]
      exact ⟨hv, rfl⟩
  · intro a ha
    rw [mem_query_abs, hsize] at ha
    obtain ⟨c, r, hc, hr, hv, hm⟩ := ha
    rw [hcols, mem_cells_build] at hm
    obtain ⟨mp, hml, hhit⟩ := hm
    rw [hitsCellB_iff] at hhit
    obtain ⟨hmv, hlin⟩ := hhit
    rw [hvalid] at hv
    unfold linOf at hlin
    have := lin_inj g0 ⌊mp.x / g0.cellSize⌋ ⌊mp.y / g0.cellSize⌋ c r hmv hv hlin.symm
    refine ⟨mp, hml, hmv, ?_, ?_⟩
    · rw [this.1]
      exact hc
    · rw [this.2]
      exact hr

theorem query_eq_flatMap (g : UniformGrid) (p : Vec) :
    g.query p = (offs.flatMap fun i => offs.map fun j =>
      (⌊p.x / g.cellSize⌋ + i, ⌊p.y / g.cellSize⌋ + j)).flatMap (cellAt g) := by
  unfold UniformGrid.query
  rw [List.flatMap_assoc]
  simp only [List.flatMap_map]
  rfl

theorem blockPairs_nodup (col row : Int) :
    (offs.flatMap fun i => offs.map fun j => (col + i, row + j)).Nodup := by
  simp only [offs, List.flatMap_cons, List.flatMap_nil, List.map_cons, List.map_nil,
    List.append_nil, List.cons_append, List.nil_append]
  simp only [List.nodup_cons, List.mem_cons, List.not_mem_nil, List.nodup_nil,
    Prod.mk.injEq, not_or]
  simp [add_right_inj]

theorem nodup_flatMap_cellAt (g : UniformGrid)
    (hcell : ∀ idx, (g.cells idx).Nodup)
    (huniq : ∀ a idx1 idx2, a ∈ g.cells idx1 → a ∈ g.cells idx2 → idx1 = idx2) :
    ∀ prs : List (Int × Int), prs.Nodup → (prs.flatMap (cellAt g)).Nodup := by
  intro prs
  induction prs with
  | nil =>
    intro h
    simp
  | cons cr rest ih =>
    intro hnd
    rw [List.flatMap_cons, List.nodup_append]
    refine ⟨?_, ih (List.Nodup.of_cons hnd), ?_⟩
    · unfold cellAt
      split
      · exact hcell _
      · exact List.nodup_nil
    · intro a ha hb
      rw [List.mem_flatMap] at hb
      obtain ⟨cr2, hcr2, ha2⟩ := hb
      have hv1 : validCell g cr.1 cr.2 := by
        by_contra hv
        simp [cellAt, hv] at ha
      have hv2 : validCell g cr2.1 cr2.2 := by
        by_contra hv
        simp [cellAt, hv] at ha2
      simp only [cellAt, if_pos hv1] at ha
      simp only [cellAt, if_pos hv2] at ha2
      have hlin := huniq a _ _ ha ha2
      have heq := lin_inj g cr.1 cr.2 cr2.1 cr2.2 hv1 hv2 hlin
      have : cr = cr2 := Prod.ext heq.1 heq.2
      rw [← this] at hcr2
      exact (List.nodup_cons.mp hnd).1 hcr2

/-- C10: if each node is inserted exactly once (distinct ids), then each
id is stored in at most one cell, and every query result is
duplicate-free even though `query` performs no deduplication. -/
theorem grid_query_nodup (g0 : UniformGrid) (l : List (Nat × Vec))
    (hids : (l.map Prod.fst).Nodup) :
    (∀ a idx1 idx2, a ∈ (insertList g0.clear l).cells idx1 →
      a ∈ (insertList g0.clear l).cells idx2 → idx1 = idx2) ∧
    (∀ p, ((insertList g0.clear l).query p).Nodup) := by
  have hinj : ∀ pr1 ∈ l, ∀ pr2 ∈ l, Prod.fst pr1 = Prod.fst pr2 → pr1 = pr2 :=
    fun pr1 h1 pr2 h2 he => List.inj_on_of_nodup_map hids h1 h2 he
  have huniq : ∀ a idx1 idx2, a ∈ (insertList g0.clear l).cells idx1 →
      a ∈ (insertList g0.clear l).cells idx2 → idx1 = idx2 := by
    intro a idx1 idx2 h1 h2
    rw [mem_cells_build] at h1 h2
    obtain ⟨mp1, hml1, hhit1⟩ := h1
    obtain ⟨mp2, hml2, hhit2⟩ := h2
    rw [hitsCellB_iff] at hhit1 hhit2
    have : (a, mp1) = (a, mp2) := hinj _ hml1 _ hml2 rfl
    have hmp : mp1 = mp2 := by
      injection this
    rw [hhit1.2, hhit2.2, hmp]
  have hcell : ∀ idx, ((insertList g0.clear l).cells idx).Nodup := by
    intro idx
    rw [cells_insertList]
    simp only [clear_cells, List.nil_append]
    exact List.Nodup.sublist
      (List.Sublist.map Prod.fst (List.filter_sublist l)) hids
  refine ⟨huniq, ?_⟩
  intro p
  rw [query_eq_flatMap]
  exact nodup_flatMap_cellAt (insertList g0.clear l) hcell huniq _
    (blockPairs_nodup _ _)

/-- C8 (amended part): a node whose cell index is out of bounds is
inserted into no cell and appears in no query result (no other node sees
it as a neighbour). -/
theorem grid_out_of_bounds (g0 : UniformGrid) (l : List (Nat × Vec))
    (nid : Nat) (np : Vec)
    (hids : (l.map Prod.fst).Nodup)
    (hmem : (nid, np) ∈ l)
    (hinv : ¬ validCell g0 ⌊np.x / g0.cellSize⌋ ⌊np.y / g0.cellSize⌋) :
    (∀ idx, nid ∉ (insertList g0.clear l).cells idx) ∧
    (∀ p, nid ∉ (insertList g0.clear l).query p) := by
  have hnotcell : ∀ idx, nid ∉ (insertList g0.clear l).cells idx := by
    intro idx hc
    rw [mem_cells_build] at hc
    obtain ⟨mp, hml, hhit⟩ := hc
    rw [hitsCellB_iff] at hhit
    have : (nid, mp) = (nid, np) :=
      List.inj_on_of_nodup_map hids hml hmem rfl
    have hmp : mp = np := by
      injection this
    rw [hmp] at hhit
    exact hinv hhit.1
  refine ⟨hnotcell, ?_⟩
  intro p hq
  rw [mem_query_abs] at hq
  obtain ⟨c, r, -, -, -, hm⟩ := hq
  exact hnotcell _ hm

theorem floorq_10_120 : (⌊(10 : ℚ) / 120⌋ : ℤ) = 0 := by
  rw [Int.floor_eq_iff] <;> norm_num

theorem floorq_130_120 : (⌊(130 : ℚ) / 120⌋ : ℤ) = 1 := by
  rw [Int.floor_eq_iff] <;> norm_num

theorem floorq_249_120 : (⌊(249 : ℚ) / 120⌋ : ℤ) = 2 := by
  rw [Int.floor_eq_iff] <;> norm_num

theorem floorq_50_120 : (⌊(50 : ℚ) / 120⌋ : ℤ) = 0 := by
  rw [Int.floor_eq_iff] <;> norm_num

theorem floorq_125_120 : (⌊(125 : ℚ) / 120⌋ : ℤ) = 1 := by
  rw [Int.floor_eq_iff] <;> norm_num

theorem ceilq_250_120 : (⌈(250 : ℚ) / 120⌉ : ℤ) = 3 := by
  rw [Int.ceil_eq_iff] <;> norm_num

theorem ceilq_100_120 : (⌈(100 : ℚ) / 120⌉ : ℤ) = 1 := by
  rw [Int.ceil_eq_iff] <;> norm_num

theorem gC5_cellSize : gC5.cellSize = 120 := rfl

theorem gC5_valid_00 : validCell gC5 0 0 := by
  unfold validCell gC5 UniformGrid.create
  refine ⟨le_refl 0, ?_, le_refl 0, ?_⟩ <;>
    · rw [ceilq_250_120]
      norm_num

/-- C5 witness: in the 3-node fixture, node 0 at (10,10) has its cell
(0,0) in bounds, and node 1 at (130,130) — cell (1,1), Chebyshev
distance 1 — is returned by node 0's query. -/
theorem grid_query_neighborhood_witness :
    (0, (⟨10, 10⟩ : Vec)) ∈ lC5 ∧
    validCell gC5 ⌊(10 : ℚ) / gC5.cellSize⌋ ⌊(10 : ℚ) / gC5.cellSize⌋ ∧
    (1 : Nat) ∈ (insertList gC5.clear lC5).query ⟨10, 10⟩ := by
  have hval : validCell gC5 ⌊(10 : ℚ) / gC5.cellSize⌋ ⌊(10 : ℚ) / gC5.cellSize⌋ := by
    rw [gC5_cellSize, floorq_10_120]
    exact gC5_valid_00
  have hmem : (0, (⟨10, 10⟩ : Vec)) ∈ lC5 := by
    simp [lC5]
  refine ⟨hmem, hval, ?_⟩
  have h1mem : (1, (⟨130, 130⟩ : Vec)) ∈ lC5 := by
    simp [lC5]
  have hv1 : validCell gC5 ⌊(130 : ℚ) / gC5.cellSize⌋ ⌊(130 : ℚ) / gC5.cellSize⌋ := by
    rw [gC5_cellSize, floorq_130_120]
    unfold validCell gC5 UniformGrid.create
    refine ⟨by norm_num, ?_, by norm_num, ?_⟩ <;>
      · rw [ceilq_250_120]
        norm_num
  exact (grid_query_neighborhood gC5 lC5 0 ⟨10, 10⟩ hmem hval).1 1 ⟨130, 130⟩
    h1mem (by simp) hv1
    (by rw [gC5_cellSize, floorq_130_120, floorq_10_120]; norm_num)
    (by rw [gC5_cellSize, floorq_130_120, floorq_10_120]; norm_num)

/-- C10 witness: in the 3-node fixture the ids are distinct and node 0's
query result is duplicate-free. -/
theorem grid_query_nodup_witness :
    (lC5.map Prod.fst).Nodup ∧
    ((insertList gC5.clear lC5).query ⟨10, 10⟩).Nodup := by
  have hids : (lC5.map Prod.fst).Nodup := by
    simp [lC5]
  exact ⟨hids, (grid_query_nodup gC5 lC5 hids).2 ⟨10, 10⟩⟩

/-- C8 witness: node 1 at (125,10) has out-of-bounds cell column 1; it
is stored in no cell and no query (here: node 0's query) returns it. -/
theorem grid_out_of_bounds_witness :
    (lC8.map Prod.fst).Nodup ∧
    (1, (⟨125, 10⟩ : Vec)) ∈ lC8 ∧
    ¬ validCell gC8 ⌊(125 : ℚ) / gC8.cellSize⌋ ⌊(10 : ℚ) / gC8.cellSize⌋ ∧
    (1 : Nat) ∉ (insertList gC8.clear lC8).query ⟨50, 50⟩ := by
  have hids : (lC8.map Prod.fst).Nodup := by
    simp [lC8]
  have hmem : (1, (⟨125, 10⟩ : Vec)) ∈ lC8 := by
    simp [lC8]
  have hinv : ¬ validCell gC8 ⌊(125 : ℚ) / gC8.cellSize⌋ ⌊(10 : ℚ) / gC8.cellSize⌋ := by
    have hs : gC8.cellSize = 120 := rfl
    rw [hs, floorq_125_120]
    unfold validCell gC8 UniformGrid.create
    rw [ceilq_100_120]
    intro h
    exact absurd h.2.1 (by norm_num)
  exact ⟨hids, hmem, hinv,
    (grid_out_of_bounds gC8 lC8 1 ⟨125, 10⟩ hids hmem hinv).2 ⟨50, 50⟩⟩

/-- C8 counterexample: the out-of-bounds node 1 at (125,10) — cell
column 1 out of range — nonetheless gets a NONEMPTY query result: its
own query still scans the in-bounds neighbouring cell (0,0) and returns
node 0, refuting "query for it returns no nodes". -/
theorem grid_out_of_bounds_counterexample :
    ¬ validCell gC8 ⌊(125 : ℚ) / gC8.cellSize⌋ ⌊(10 : ℚ) / gC8.cellSize⌋ ∧
    (0 : Nat) ∈ (insertList gC8.clear lC8).query ⟨125, 10⟩ := by
  have hs : gC8.cellSize = 120 := rfl
  constructor
  · rw [hs, floorq_125_120]
    unfold validCell gC8 UniformGrid.create
    rw [ceilq_100_120]
    intro h
    exact absurd h.2.1 (by norm_num)
  · rw [mem_query_abs]
    have hsize : (insertList gC8.clear lC8).cellSize = 120 := by
      simp [gC8, UniformGrid.create]
    rw [hsize, floorq_125_120, floorq_10_120]
    refine ⟨0, 0, by norm_num, by norm_num, ?_, ?_⟩
    · have hvalid : ∀ c r, validCell (insertList gC8.clear lC8) c r ↔ validCell gC8 c r := by
        intro c r
        unfold validCell
        simp
      rw [hvalid]
      unfold validCell gC8 UniformGrid.create
      rw [ceilq_100_120]
      norm_num
    · have hcols : (insertList gC8.clear lC8).cols = gC8.cols := by simp
      rw [hcols, mem_cells_build]
      refine ⟨⟨50, 50⟩, by simp [lC8], ?_⟩
      rw [hitsCellB_iff]
      have hs8 : gC8.cellSize = 120 := rfl
      constructor
      · rw [hs8]
        simp only [floorq_50_120]
        unfold validCell gC8 UniformGrid.create
        rw [ceilq_100_120]
        norm_num
      · unfold linOf
        rw [hs8]
        simp only [floorq_50_120]

@[simp] theorem Vec.mk_x (a b : ℚ) : (Vec.mk a b).x = a := rfl

@[simp] theorem Vec.mk_y (a b : ℚ) : (Vec.mk a b).y = b := rfl

@[ext] theorem Vec.extXY (a b : Vec) (hx : a.x = b.x) (hy : a.y = b.y) : a = b := by
  cases a
  cases b
  simp only [Vec.mk_x, Vec.mk_y] at hx hy
  rw [hx, hy]

/-- C7: after integration, a coordinate below 0 is reset to the opposite
extent, a coordinate above the extent is reset to 0, in-range
coordinates are untouched (a true wrap, not a clamp or mirror); and a
node whose x-coordinate becomes -0.001 during a step ends that same step
at x = width (its in-range y-coordinate untouched). -/
theorem wrapEdges_toroidal (w h : ℚ) (hw : 0 ≤ w) (hh : 0 ≤ h) (p : Vec)
    (cfg : Config) (orc : Oracles) (wt : Weights) (n : NodeState) (py : ℚ)
    (hx : (preWrapPos cfg orc wt n).x = -1/1000)
    (hy : (preWrapPos cfg orc wt n).y = py)
    (hy0 : 0 ≤ py) (hyh : py ≤ h) :
    ((p.x < 0 → (wrapEdges w h p).x = w) ∧
     (p.x > w → (wrapEdges w h p).x = 0) ∧
     (p.y < 0 → (wrapEdges w h p).y = h) ∧
     (p.y > h → (wrapEdges w h p).y = 0) ∧
     (0 ≤ p.x → p.x ≤ w → (wrapEdges w h p).x = p.x) ∧
     (0 ≤ p.y → p.y ≤ h → (wrapEdges w h p).y = p.y)) ∧
    (updatePhysics cfg orc w h wt n).pos = ⟨w, py⟩ := by
  constructor
  · refine ⟨?_, ?_, ?_, ?_, ?_, ?_⟩
    · intro hlt
      simp only [wrapEdges, Vec.mk_x]
      rw [if_pos hlt, if_neg (lt_irrefl w)]
    · intro hgt
      have hnx : ¬(p.x < 0) := by linarith
      simp only [wrapEdges, Vec.mk_x]
      rw [if_neg hnx, if_pos hgt]
    · intro hlt
      simp only [wrapEdges, Vec.mk_y]
      rw [if_pos hlt, if_neg (lt_irrefl h)]
    · intro hgt
      have hny : ¬(p.y < 0) := by linarith
      simp only [wrapEdges, Vec.mk_y]
      rw [if_neg hny, if_pos hgt]
    · intro h0 h1
      simp only [wrapEdges, Vec.mk_x]
      rw [if_neg (not_lt.mpr h0), if_neg (not_lt.mpr h1)]
    · intro h0 h1
      simp only [wrapEdges, Vec.mk_y]
      rw [if_neg (not_lt.mpr h0), if_neg (not_lt.mpr h1)]
  · have hpw : preWrapPos cfg orc wt n = ⟨-1/1000, py⟩ := by
      ext
      · rw [hx]
      · rw [hy]
    have hpos : (updatePhysics cfg orc w h wt n).pos =
        wrapEdges w h (preWrapPos cfg orc wt n) := rfl
    rw [hpos, hpw]
    simp only [wrapEdges, Vec.mk_x, Vec.mk_y]
    rw [if_pos (by norm_num : (-1/1000 : ℚ) < 0), if_neg (lt_irrefl w),
      if_neg (not_lt.mpr hy0), if_neg (not_lt.mpr hyh)]

/-- C7 witness: on a 300×200 canvas with Fog weights, node `nC7`
integrates to x = -0.001 and ends the step at (300, 5). -/
theorem wrapEdges_toroidal_witness :
    (preWrapPos CONFIG oracleFix wFogOnly nC7).x = -1/1000 ∧
    (preWrapPos CONFIG oracleFix wFogOnly nC7).y = 5 ∧
    0 ≤ (5 : ℚ) ∧ (5 : ℚ) ≤ 200 ∧
    (updatePhysics CONFIG oracleFix 300 200 wFogOnly nC7).pos = ⟨300, 5⟩ := by
  have hx : (preWrapPos CONFIG oracleFix wFogOnly nC7).x = -1/1000 := by
    norm_num [preWrapPos, velAfter, limitV, dragMaxOf, normSq, nC7, wFogOnly, CONFIG]
  have hy : (preWrapPos CONFIG oracleFix wFogOnly nC7).y = 5 := by
    norm_num [preWrapPos, velAfter, limitV, dragMaxOf, normSq, nC7, wFogOnly, CONFIG]
  refine ⟨hx, hy, by norm_num, by norm_num, ?_⟩
  exact (wrapEdges_toroidal 300 200 (by norm_num) (by norm_num) ⟨0, 0⟩
    CONFIG oracleFix wFogOnly nC7 5 hx hy (by norm_num) (by norm_num)).2

theorem normSq_sub_eq_dist2 (a b : Vec) : normSq (b - a) = dist2 a b := by
  unfold normSq dist2
  simp only [Vec.sub_x, Vec.sub_y]
  ring

/-- C6 (amended): whenever the Net block runs, the per-neighbour
contribution for a neighbour at computed distance `0 < d < connectionDist`
is the attraction (gated on net > 0.01) of magnitude
`(1 - d/connectionDist) · attractForce · net` toward the neighbour, plus,
if `d < repelRadius`, the repulsion of magnitude
`(1 - d/repelRadius) · repelForce · net · (1 - 0.5·fluid)` away from the
neighbour; the direction `(1/d)·(other - self)` is a unit vector when
the square root is exact (`d·d = dist2`). -/
theorem netPairForce_formula (cfg : Config) (orc : Oracles) (wt : Weights)
    (self other : Vec) (d : ℚ)
    (hd : d = orc.sqrtF (dist2 self other))
    (hsq : d * d = dist2 self other)
    (h0 : 0 < d) (hC : d < cfg.net.connectionDist) :
    normSq ((1 / d) • (other - self)) = 1 ∧
    netPairForce cfg orc wt self other =
      (if wt.net > 1/100 then
        ((1 - d / cfg.net.connectionDist) * cfg.net.attractForce * wt.net) •
          ((1 / d) • (other - self)) else 0) +
      (if d < cfg.net.repelRadius then
        (-((1 - d / cfg.net.repelRadius) * cfg.net.repelForce * wt.net *
          (1 - wt.fluid / 2))) • ((1 / d) • (other - self)) else 0) := by
  have hd0 : d ≠ 0 := ne_of_gt h0
  constructor
  · have hsq2 : (other.x - self.x) ^ 2 + (other.y - self.y) ^ 2 = d * d := by
      unfold dist2 at hsq
      linear_combination -hsq
    unfold normSq
    simp only [Vec.smul_x, Vec.smul_y, Vec.sub_x, Vec.sub_y]
    calc (1 / d * (other.x - self.x)) ^ 2 + (1 / d * (other.y - self.y)) ^ 2
        = ((other.x - self.x) ^ 2 + (other.y - self.y) ^ 2) * (1 / d) ^ 2 := by
          ring
      _ = (d * d) * (1 / d) ^ 2 := by rw [hsq2]
      _ = 1 := by
          field_simp
          ring
  · simp only [netPairForce, normalizeV, normSq_sub_eq_dist2, ← hd]
    rw [if_pos ⟨h0, hC⟩, if_neg hd0]
    congr 1
    · split_ifs with hn
      · have hm : mapQ d 0 cfg.net.connectionDist 1 0 =
            1 - d / cfg.net.connectionDist := by
          unfold mapQ
          ring
        rw [hm]
      · rfl
    · split_ifs with hr
      · have hm : (-1) * mapQ d 0 cfg.net.repelRadius 1 0 * cfg.net.repelForce *
            wt.net * (1 - wt.fluid * (1/2)) =
            -((1 - d / cfg.net.repelRadius) * cfg.net.repelForce * wt.net *
              (1 - wt.fluid / 2)) := by
          unfold mapQ
          ring
        rw [hm]
      · rfl

/-- C6 witness: with full Net weights, the neighbour at distance 5
(self (0,0), other (3,4), exact square root from the table) receives
both the attraction and the repulsion term of the stated form. -/
theorem netPairForce_formula_witness :
    (5 : ℚ) = oracleFix.sqrtF (dist2 ⟨0, 0⟩ ⟨3, 4⟩) ∧
    (5 : ℚ) * 5 = dist2 ⟨0, 0⟩ ⟨3, 4⟩ ∧
    (0 : ℚ) < 5 ∧ (5 : ℚ) < CONFIG.net.connectionDist ∧
    normSq ((1 / (5 : ℚ)) • ((⟨3, 4⟩ : Vec) - ⟨0, 0⟩)) = 1 ∧
    netPairForce CONFIG oracleFix wNet ⟨0, 0⟩ ⟨3, 4⟩ =
      (if wNet.net > 1/100 then
        ((1 - (5 : ℚ) / CONFIG.net.connectionDist) * CONFIG.net.attractForce * wNet.net) •
          ((1 / (5 : ℚ)) • ((⟨3, 4⟩ : Vec) - ⟨0, 0⟩)) else 0) +
      (if (5 : ℚ) < CONFIG.net.repelRadius then
        (-((1 - (5 : ℚ) / CONFIG.net.repelRadius) * CONFIG.net.repelForce * wNet.net *
          (1 - wNet.fluid / 2))) • ((1 / (5 : ℚ)) • ((⟨3, 4⟩ : Vec) - ⟨0, 0⟩)) else 0) := by
  have hd : (5 : ℚ) = oracleFix.sqrtF (dist2 ⟨0, 0⟩ ⟨3, 4⟩) := by
    norm_num [oracleFix, sqrtTable, dist2]
  have hsq : (5 : ℚ) * 5 = dist2 ⟨0, 0⟩ ⟨3, 4⟩ := by
    norm_num [dist2]
  have h0 : (0 : ℚ) < 5 := by norm_num
  have hC : (5 : ℚ) < CONFIG.net.connectionDist := by norm_num [CONFIG]
  have hmain := netPairForce_formula CONFIG oracleFix wNet ⟨0, 0⟩ ⟨3, 4⟩ 5 hd hsq h0 hC
  exact ⟨hd, hsq, h0, hC, hmain.1, hmain.2⟩

/-- C6 counterexample: with net = 1/200 (≤ 0.01) and fluid = 0, the
neighbour at distance 10 < repelRadius would, by the claim, contribute a
nonzero repulsion of magnitude (1 - 10/40)·repelForce·net — and indeed
the per-pair formula yields a nonzero vector — but `applyBehaviors`
leaves the acceleration at zero because the outer gate
`net > 0.01 || fluid > 0.01` never runs the Net block. -/
theorem netPairForce_gate_counterexample :
    applyBehaviors CONFIG oracleFix fpInit wGate 100 100 0 gC6 mC6 0 = ⟨0, 0⟩ ∧
    netPairForce CONFIG oracleFix wGate ⟨0, 0⟩ ⟨10, 0⟩ = ⟨-9/16000, 0⟩ ∧
    ((⟨-9/16000, 0⟩ : Vec) ≠ ⟨0, 0⟩) := by
  refine ⟨?_, ?_, ?_⟩
  · norm_num [applyBehaviors, wGate, mC6]
  · refine Vec.extXY _ _ ?_ ?_ <;>
      norm_num [netPairForce, normalizeV, dist2, normSq, mapQ, oracleFix, sqrtTable,
        wGate, CONFIG]
  · intro hcon
    have := congrArg Vec.x hcon
    norm_num at this

/-- A node step writes only the stepped node's state. -/
theorem stepNode_ne (cfg : Config) (orc : Oracles) (fp : FluidProfile)
    (wt : Weights) (w h fc : ℚ) (g : UniformGrid) (m : NodeMap) (j i : Nat)
    (hne : j ≠ i) :
    stepNode cfg orc fp wt w h fc g m j i = m i := by
  simp only [stepNode, setNode]
  rw [if_neg (fun hx => hne hx.symm)]

/-- The stepped node's own resulting state: reset, accumulate forces
from the current heap, then integrate. -/
theorem stepNode_self (cfg : Config) (orc : Oracles) (fp : FluidProfile)
    (wt : Weights) (w h fc : ℚ) (g : UniformGrid) (m : NodeMap) (j : Nat) :
    stepNode cfg orc fp wt w h fc g m j j =
      updatePhysics cfg orc w h wt
        ⟨(m j).pos, (m j).vel,
         applyBehaviors cfg orc fp wt w h fc g
           (setNode m j ⟨(m j).pos, (m j).vel, 0⟩) j⟩ := by
  simp only [stepNode, setNode]
  simp

@[simp] theorem updatePhysics_acc (cfg : Config) (orc : Oracles) (w h : ℚ)
    (wt : Weights) (n : NodeState) :
    (updatePhysics cfg orc w h wt n).acc = n.acc := rfl

theorem foldl_stepNode_skip (cfg : Config) (orc : Oracles) (fp : FluidProfile)
    (wt : Weights) (w h fc : ℚ) (g : UniformGrid) :
    ∀ (rest : List Nat) (m : NodeMap) (i : Nat), i ∉ rest →
      rest.foldl (stepNode cfg orc fp wt w h fc g) m i = m i := by
  intro rest
  induction rest with
  | nil =>
    intro m i _
    rfl
  | cons j rest ih =>
    intro m i hmem
    rw [List.foldl_cons]
    have hji : j ≠ i := by
      intro hx
      subst hx
      exact hmem (List.mem_cons_self _ _)
    rw [ih _ _ (fun hx => hmem (List.mem_cons_of_mem _ hx))]
    exact stepNode_ne cfg orc fp wt w h fc g m j i hji

/-- C2 (amended): within one frame the loop interleaves per node — each
node is reset, accumulates forces, and is integrated before the next
node is processed.  What does hold: a step writes only the stepped
node's state, and the first-processed node's forces are computed
entirely from the start-of-frame heap (so its resulting state does not
depend on the rest of the order). -/
theorem frame_interleaving (cfg : Config) (orc : Oracles) (fp : FluidProfile)
    (wt : Weights) (w h fc : ℚ) :
    (∀ (g : UniformGrid) (m : NodeMap) (j i : Nat), j ≠ i →
      stepNode cfg orc fp wt w h fc g m j i = m i) ∧
    (∀ (m : NodeMap) (i : Nat) (rest : List Nat), i ∉ rest →
      runFrame cfg orc fp wt w h fc (i :: rest) m i =
        stepNode cfg orc fp wt w h fc
          (insertList (UniformGrid.create w h cfg.gridCellSize).clear
            ((i :: rest).map fun j => (j, (m j).pos))) m i i) := by
  constructor
  · intro g m j i hne
    exact stepNode_ne cfg orc fp wt w h fc g m j i hne
  · intro m i rest hnotin
    unfold runFrame
    rw [List.foldl_cons]
    exact foldl_stepNode_skip cfg orc fp wt w h fc _ rest _ i hnotin

/-- Query of a 1×1 grid from the (0,0) cell returns exactly cell 0. -/
theorem query_1x1 (g : UniformGrid) (p : Vec)
    (h1 : g.cols = 1) (h2 : g.rows = 1)
    (hx : ⌊p.x / g.cellSize⌋ = 0) (hy : ⌊p.y / g.cellSize⌋ = 0) :
    g.query p = g.cells 0 := by
  simp only [UniformGrid.query, offs, List.flatMap_cons, List.flatMap_nil, hx, hy]
  norm_num [validCell, h1, h2]

/-- An in-bounds position of a 1×1 grid hits cell 0. -/
theorem hitsB_1x1 (g : UniformGrid) (p : Vec)
    (h1 : g.cols = 1) (h2 : g.rows = 1)
    (hx : ⌊p.x / g.cellSize⌋ = 0) (hy : ⌊p.y / g.cellSize⌋ = 0) :
    hitsCellB g p 0 = true := by
  rw [hitsCellB_iff]
  constructor
  · rw [hx, hy]
    unfold validCell
    rw [h1, h2]
    norm_num
  · unfold linOf
    rw [hx, hy, h1]
    norm_num

theorem gBase_cols : gBase.cols = 1 := by
  show (⌈(100 : ℚ) / 120⌉ : ℤ) = 1
  exact ceilq_100_120

theorem gBase_rows : gBase.rows = 1 := by
  show (⌈(100 : ℚ) / 120⌉ : ℤ) = 1
  exact ceilq_100_120

theorem create100_cols : (UniformGrid.create 100 100 120).cols = 1 := by
  show (⌈(100 : ℚ) / 120⌉ : ℤ) = 1
  exact ceilq_100_120

theorem create100_rows : (UniformGrid.create 100 100 120).rows = 1 := by
  show (⌈(100 : ℚ) / 120⌉ : ℤ) = 1
  exact ceilq_100_120

theorem gRun1_cols : gRun1.cols = 1 := by
  rw [gRun1, insertList_cols]
  exact gBase_cols

theorem gRun1_rows : gRun1.rows = 1 := by
  rw [gRun1, insertList_rows]
  exact gBase_rows

theorem gRun1_cellSize : gRun1.cellSize = 120 := by
  rw [gRun1, insertList_cellSize]
  rfl

theorem gRun2_cols : gRun2.cols = 1 := by
  rw [gRun2, insertList_cols]
  exact gBase_cols

theorem gRun2_rows : gRun2.rows = 1 := by
  rw [gRun2, insertList_rows]
  exact gBase_rows

theorem gRun2_cellSize : gRun2.cellSize = 120 := by
  rw [gRun2, insertList_cellSize]
  rfl

theorem hits_p10 : hitsCellB (UniformGrid.create 100 100 120) ⟨10, 10⟩ 0 = true := by
  apply hitsB_1x1 _ _ create100_cols create100_rows
  · show (⌊(10 : ℚ) / 120⌋ : ℤ) = 0
    exact floorq_10_120
  · show (⌊(10 : ℚ) / 120⌋ : ℤ) = 0
    exact floorq_10_120

theorem hits_p50 : hitsCellB (UniformGrid.create 100 100 120) ⟨50, 10⟩ 0 = true := by
  apply hitsB_1x1 _ _ create100_cols create100_rows
  · show (⌊(50 : ℚ) / 120⌋ : ℤ) = 0
    exact floorq_50_120
  · show (⌊(10 : ℚ) / 120⌋ : ℤ) = 0
    exact floorq_10_120

theorem gRun1_cells0 : gRun1.cells 0 = [0, 1] := by
  rw [gRun1, cells_insertList]
  simp [List.filter_cons, hits_p10, hits_p50, gBase]

theorem gRun2_cells0 : gRun2.cells 0 = [1, 0] := by
  rw [gRun2, cells_insertList]
  simp [List.filter_cons, hits_p10, hits_p50, gBase]

theorem setNode_self (m : NodeMap) (i : Nat) (n : NodeState) :
    setNode m i n i = n := by
  simp [setNode]

theorem setNode_other (m : NodeMap) (i j : Nat) (n : NodeState) (hne : j ≠ i) :
    setNode m i n j = m j := by
  simp [setNode, hne]

@[ext] theorem NodeState.extFields (a b : NodeState) (h1 : a.pos = b.pos)
    (h2 : a.vel = b.vel) (h3 : a.acc = b.acc) : a = b := by
  cases a
  cases b
  simp only at h1 h2 h3
  rw [h1, h2, h3]

theorem wNet_fog : wNet.fog = 0 := rfl

theorem wNet_net : wNet.net = 1 := rfl

theorem wNet_fluid : wNet.fluid = 0 := rfl

theorem query_gRun2_at50 : gRun2.query ⟨50, 10⟩ = [1, 0] := by
  rw [query_1x1 gRun2 ⟨50, 10⟩ gRun2_cols gRun2_rows
    (by rw [gRun2_cellSize]; exact floorq_50_120)
    (by rw [gRun2_cellSize]; exact floorq_10_120)]
  exact gRun2_cells0

theorem query_gRun1_at50 : gRun1.query ⟨50, 10⟩ = [0, 1] := by
  rw [query_1x1 gRun1 ⟨50, 10⟩ gRun1_cols gRun1_rows
    (by rw [gRun1_cellSize]; exact floorq_50_120)
    (by rw [gRun1_cellSize]; exact floorq_10_120)]
  exact gRun1_cells0

theorem query_gRun1_at10 : gRun1.query ⟨10, 10⟩ = [0, 1] := by
  rw [query_1x1 gRun1 ⟨10, 10⟩ gRun1_cols gRun1_rows
    (by rw [gRun1_cellSize]; exact floorq_10_120)
    (by rw [gRun1_cellSize]; exact floorq_10_120)]
  exact gRun1_cells0

theorem netPair_50_10 : netPairForce CONFIG oracleFix wNet ⟨50, 10⟩ ⟨10, 10⟩ =
    ⟨-3/625, 0⟩ := by
  refine Vec.extXY _ _ ?_ ?_ <;>
    norm_num [netPairForce, normalizeV, dist2, normSq, mapQ, oracleFix, sqrtTable, wNet, CONFIG]

theorem netPair_10_50 : netPairForce CONFIG oracleFix wNet ⟨10, 10⟩ ⟨50, 10⟩ =
    ⟨3/625, 0⟩ := by
  refine Vec.extXY _ _ ?_ ?_ <;>
    norm_num [netPairForce, normalizeV, dist2, normSq, mapQ, oracleFix, sqrtTable, wNet, CONFIG]

theorem netPair_50_shifted : netPairForce CONFIG oracleFix wNet ⟨50, 10⟩ ⟨62527/6250, 10⟩ =
    ⟨-2990091/625000000, 0⟩ := by
  refine Vec.extXY _ _ ?_ ?_ <;>
    norm_num [netPairForce, normalizeV, dist2, normSq, mapQ, oracleFix, sqrtTable, wNet, CONFIG]

theorem heapR_at1 : setNode mC2 1 ⟨(mC2 1).pos, (mC2 1).vel, 0⟩ 1 =
    ⟨⟨50, 10⟩, ⟨0, 0⟩, ⟨0, 0⟩⟩ := rfl

theorem heapR_at0 : setNode mC2 1 ⟨(mC2 1).pos, (mC2 1).vel, 0⟩ 0 =
    ⟨⟨10, 10⟩, ⟨0, 0⟩, ⟨0, 0⟩⟩ := rfl

theorem accR_node1 : applyBehaviors CONFIG oracleFix fpInit wNet 100 100 0 gRun2
    (setNode mC2 1 ⟨(mC2 1).pos, (mC2 1).vel, 0⟩) 1 = ⟨-3/625, 0⟩ := by
  refine Vec.extXY _ _ ?_ ?_ <;>
    · simp only [applyBehaviors, heapR_at1, heapR_at0]
      rw [query_gRun2_at50]
      norm_num [List.foldl_cons, List.foldl_nil, heapR_at0, netPair_50_10,
        wNet_fog, wNet_net, wNet_fluid]

theorem heapL1_at0 : setNode mC2 0 ⟨(mC2 0).pos, (mC2 0).vel, 0⟩ 0 =
    ⟨⟨10, 10⟩, ⟨0, 0⟩, ⟨0, 0⟩⟩ := rfl

theorem heapL1_at1 : setNode mC2 0 ⟨(mC2 0).pos, (mC2 0).vel, 0⟩ 1 =
    ⟨⟨50, 10⟩, ⟨0, 0⟩, ⟨0, 0⟩⟩ := rfl

theorem accL_node0 : applyBehaviors CONFIG oracleFix fpInit wNet 100 100 0 gRun1
    (setNode mC2 0 ⟨(mC2 0).pos, (mC2 0).vel, 0⟩) 0 = ⟨3/625, 0⟩ := by
  refine Vec.extXY _ _ ?_ ?_ <;>
    · simp only [applyBehaviors, heapL1_at0, heapL1_at1]
      rw [query_gRun1_at10]
      norm_num [List.foldl_cons, List.foldl_nil, heapL1_at1, netPair_10_50,
        wNet_fog, wNet_net, wNet_fluid]

theorem step0_result : stepNode CONFIG oracleFix fpInit wNet 100 100 0 gRun1 mC2 0 0
    = ⟨⟨62527/6250, 10⟩, ⟨27/6250, 0⟩, ⟨3/625, 0⟩⟩ := by
  rw [stepNode_self, accL_node0]
  ext <;> norm_num [updatePhysics, preWrapPos, velAfter, limitV, dragMaxOf, wrapEdges,
    normSq, wNet_fog, wNet_net, wNet_fluid, mC2, CONFIG]

theorem step0_keeps_node1 : stepNode CONFIG oracleFix fpInit wNet 100 100 0 gRun1 mC2 0 1 =
    mC2 1 :=
  stepNode_ne CONFIG oracleFix fpInit wNet 100 100 0 gRun1 mC2 0 1 (by decide)

theorem heapL2_at1 :
    setNode (stepNode CONFIG oracleFix fpInit wNet 100 100 0 gRun1 mC2 0) 1
      ⟨(stepNode CONFIG oracleFix fpInit wNet 100 100 0 gRun1 mC2 0 1).pos,
       (stepNode CONFIG oracleFix fpInit wNet 100 100 0 gRun1 mC2 0 1).vel, 0⟩ 1
    = ⟨⟨50, 10⟩, ⟨0, 0⟩, ⟨0, 0⟩⟩ := by
  rw [setNode_self, step0_keeps_node1]
  rfl

theorem heapL2_at0 :
    setNode (stepNode CONFIG oracleFix fpInit wNet 100 100 0 gRun1 mC2 0) 1
      ⟨(stepNode CONFIG oracleFix fpInit wNet 100 100 0 gRun1 mC2 0 1).pos,
       (stepNode CONFIG oracleFix fpInit wNet 100 100 0 gRun1 mC2 0 1).vel, 0⟩ 0
    = ⟨⟨62527/6250, 10⟩, ⟨27/6250, 0⟩, ⟨3/625, 0⟩⟩ := by
  rw [setNode_other _ _ _ _ (by decide)]
  exact step0_result

theorem accL_node1 : applyBehaviors CONFIG oracleFix fpInit wNet 100 100 0 gRun1
    (setNode (stepNode CONFIG oracleFix fpInit wNet 100 100 0 gRun1 mC2 0) 1
      ⟨(stepNode CONFIG oracleFix fpInit wNet 100 100 0 gRun1 mC2 0 1).pos,
       (stepNode CONFIG oracleFix fpInit wNet 100 100 0 gRun1 mC2 0 1).vel, 0⟩) 1
    = ⟨-2990091/625000000, 0⟩ := by
  refine Vec.extXY _ _ ?_ ?_ <;>
    · simp only [applyBehaviors, heapL2_at1, heapL2_at0]
      rw [query_gRun1_at50]
      norm_num [List.foldl_cons, List.foldl_nil, heapL2_at0, netPair_50_shifted,
        wNet_fog, wNet_net, wNet_fluid]

/-- C2 counterexample: the same two-node start-of-frame state, processed
in orders [0, 1] and [1, 0], yields different accumulated accelerations
for node 1 (-2990091/625000000 versus -3/625 = -3000000/625000000 on the
x-axis), because node 1's force accumulation in order [0, 1] reads node
0's already-integrated position of the same frame.  Every square root
taken in both runs is exact (40² = 1600, (249973/6250)² = dist²). -/
theorem frame_order_counterexample :
    (runFrame CONFIG oracleFix fpInit wNet 100 100 0 [0, 1] mC2 1).acc ≠
    (runFrame CONFIG oracleFix fpInit wNet 100 100 0 [1, 0] mC2 1).acc := by
  show (stepNode CONFIG oracleFix fpInit wNet 100 100 0 gRun1
      (stepNode CONFIG oracleFix fpInit wNet 100 100 0 gRun1 mC2 0) 1 1).acc ≠
    (stepNode CONFIG oracleFix fpInit wNet 100 100 0 gRun2
      (stepNode CONFIG oracleFix fpInit wNet 100 100 0 gRun2 mC2 1) 0 1).acc
  rw [stepNode_ne CONFIG oracleFix fpInit wNet 100 100 0 gRun2 _ 0 1 (by decide)]
  rw [stepNode_self, stepNode_self]
  simp only [updatePhysics_acc]
  rw [accL_node1, accR_node1]
  intro hcon
  have hx := congrArg Vec.x hcon
  norm_num at hx

/-- C2 witness (for the amended theorem): with the counterexample's
fixture, the first-processed node's resulting state is exactly one
`stepNode` on the start-of-frame heap. -/
theorem frame_interleaving_witness :
    (0 : Nat) ∉ [1] ∧
    runFrame CONFIG oracleFix fpInit wNet 100 100 0 [0, 1] mC2 0 =
      stepNode CONFIG oracleFix fpInit wNet 100 100 0
        (insertList (UniformGrid.create 100 100 CONFIG.gridCellSize).clear
          ([0, 1].map fun j => (j, (mC2 j).pos))) mC2 0 0 :=
  ⟨by simp,
   (frame_interleaving CONFIG oracleFix fpInit wNet 100 100 0).2 mC2 0 [1] (by simp)⟩

end ResonantTopography
